import Mathlib

/-!
Verification development for the recipe catalog server
(`backend_server.js`, `database_setup.sql`, `api_tests.js`).

The JavaScript handlers and the ingestion loader are shallowly embedded as
executable Lean functions.  JavaScript numbers only matter here through
NaN-ness, infinities and exact decimal values, so finite values are modelled
exactly as scaled decimal integers (`Dec`: mantissa over a power of ten),
which the kernel can evaluate; `Dec.toRat` bridges to `ℚ` inside proofs.
Floating point rounding is irrelevant to every property treated here
(all comparisons are between short decimal literals).
-/

/-- Finite decimal number: the value `m / 10 ^ e`.  Not normalised; semantic
comparisons go through cross multiplication (`Dec.leb`, `Dec.ltb`). -/
structure Dec where
  m : ℤ
  e : ℕ
deriving DecidableEq

/-- Power of ten over `ℤ`, by structural recursion so the kernel evaluates it. -/
def tenPow : ℕ → ℤ
  | 0 => 1
  | n + 1 => 10 * tenPow n

theorem tenPow_eq (n : ℕ) : tenPow n = (10 : ℤ) ^ n := by
  induction n with
  | zero => rfl
  | succ k ih => rw [tenPow, ih, pow_succ]; ring

theorem tenPow_pos (n : ℕ) : 0 < tenPow n := by
  rw [tenPow_eq]; positivity

/-- Rational value of a `Dec`. -/
def Dec.toRat (d : Dec) : ℚ := (d.m : ℚ) / (10 : ℚ) ^ d.e

/-- Semantic strict order on `Dec`, by cross multiplication. -/
def Dec.ltb (a b : Dec) : Bool := decide (a.m * tenPow b.e < b.m * tenPow a.e)

/-- Semantic order on `Dec`, by cross multiplication. -/
def Dec.leb (a b : Dec) : Bool := decide (a.m * tenPow b.e ≤ b.m * tenPow a.e)

theorem tenPow_cast (n : ℕ) : ((tenPow n : ℤ) : ℚ) = (10 : ℚ) ^ n := by
  rw [tenPow_eq]; push_cast; ring

theorem Dec.ltb_iff (a b : Dec) : a.ltb b = true ↔ a.toRat < b.toRat := by
  rw [Dec.ltb, decide_eq_true_iff, Dec.toRat, Dec.toRat,
    div_lt_div_iff₀ (by positivity) (by positivity)]
  rw [show ((10:ℚ) ^ b.e) = ((tenPow b.e : ℤ) : ℚ) from (tenPow_cast b.e).symm,
    show ((10:ℚ) ^ a.e) = ((tenPow a.e : ℤ) : ℚ) from (tenPow_cast a.e).symm]
  exact_mod_cast Iff.rfl

theorem Dec.leb_iff (a b : Dec) : a.leb b = true ↔ a.toRat ≤ b.toRat := by
  rw [Dec.leb, decide_eq_true_iff, Dec.toRat, Dec.toRat,
    div_le_div_iff₀ (by positivity) (by positivity)]
  rw [show ((10:ℚ) ^ b.e) = ((tenPow b.e : ℤ) : ℚ) from (tenPow_cast b.e).symm,
    show ((10:ℚ) ^ a.e) = ((tenPow a.e : ℤ) : ℚ) from (tenPow_cast a.e).symm]
  exact_mod_cast Iff.rfl

/-- Multiply a `Dec` by `10 ^ k` for `k : ℤ` (used for exponent parts of
numeric literals). -/
def Dec.mulPow10 (d : Dec) (k : ℤ) : Dec :=
  if 0 ≤ k then ⟨d.m * tenPow k.toNat, d.e⟩ else ⟨d.m, d.e + (-k).toNat⟩

/-- Negate a `Dec`. -/
def Dec.neg (d : Dec) : Dec := ⟨-d.m, d.e⟩

/-- JavaScript number: finite decimal, infinities, or NaN. -/
inductive JsNum where
  | num (d : Dec)
  | inf
  | negInf
  | nan
deriving DecidableEq

def JsNum.isNaN : JsNum → Bool
  | .nan => true
  | _ => false

/-- JSON value as it can appear in a recipe field (objects and arrays are kept
out; the nutrients map is modelled separately with string values, matching the
dataset). -/
inductive Jval where
  | jnull
  | jbool (b : Bool)
  | jstr (s : String)
  | jnum (d : Dec)
deriving DecidableEq

/-! Character-level helpers for the JavaScript numeric conversions. -/

def isDig (c : Char) : Bool := '0' ≤ c && c ≤ '9'

def isWsChar (c : Char) : Bool := c = ' ' || c = '\t' || c = '\n' || c = '\r'

/-- Numeric value of a run of decimal digit characters. -/
def digitsVal (l : List Char) : ℕ :=
  l.foldl (fun a c => a * 10 + (c.toNat - 48)) 0

/-- Value of a digit character in radix up to 16, `none` if not a digit. -/
def radDig (c : Char) : Option ℕ :=
  if '0' ≤ c && c ≤ '9' then some (c.toNat - 48)
  else if 'a' ≤ c && c ≤ 'f' then some (c.toNat - 87)
  else if 'A' ≤ c && c ≤ 'F' then some (c.toNat - 55)
  else none

/-- Split a leading optional sign off a character list; `true` means negative. -/
def signSplit (l : List Char) : Bool × List Char :=
  match l with
  | '-' :: r => (true, r)
  | '+' :: r => (false, r)
  | _ => (false, l)

def applySignInt (neg : Bool) (n : ℕ) : ℤ := if neg then -(n : ℤ) else (n : ℤ)

def applySignDec (neg : Bool) (d : Dec) : Dec := if neg then d.neg else d

def spanDigits (l : List Char) : List Char × List Char :=
  (l.takeWhile isDig, l.dropWhile isDig)

/-- Exponent part of a JavaScript number literal when the whole remaining
input must be consumed (used by the `Number(...)` coercion). -/
def expFull (l : List Char) : Option ℤ :=
  let p := signSplit l
  let d := spanDigits p.2
  if d.1.isEmpty || !d.2.isEmpty then none
  else some (applySignInt p.1 (digitsVal d.1))

/-- Decimal literal filling the whole input: `digits [. digits] [exp]` or
`. digits [exp]`, as accepted by the JavaScript `Number(...)` coercion. -/
def decFull (l : List Char) : Option Dec :=
  let p1 := spanDigits l
  let p2 := match p1.2 with
    | '.' :: rest => spanDigits rest
    | _ => ([], p1.2)
  if p1.1.isEmpty && p2.1.isEmpty then none
  else
    let base : Dec := ⟨(digitsVal p1.1 * tenPow p2.1.length + digitsVal p2.1 : ℤ), p2.1.length⟩
    match p2.2 with
    | [] => some base
    | 'e' :: rest => (expFull rest).map base.mulPow10
    | 'E' :: rest => (expFull rest).map base.mulPow10
    | _ => none

/-- Radix (binary/octal/hex) literal filling the whole input. -/
def radixFull (b : ℕ) (l : List Char) : JsNum :=
  if l.isEmpty then .nan
  else if l.all (fun c => ((radDig c).map (fun v => decide (v < b))).getD false) then
    .num ⟨(l.foldl (fun a c => a * b + (radDig c).getD 0) 0 : ℕ), 0⟩
  else .nan

/-- JavaScript `Number(s)` on a string: trims whitespace, empty means `0`,
otherwise the whole trimmed string must be a numeric literal
(decimal, `Infinity`, or a `0x`/`0o`/`0b` radix literal), else NaN. -/
def jsStrToNumber (s : String) : JsNum :=
  let l := ((s.toList.dropWhile isWsChar).reverse.dropWhile isWsChar).reverse
  if l.isEmpty then .num ⟨0, 0⟩
  else
    match l with
    | '0' :: 'x' :: r => radixFull 16 r
    | '0' :: 'X' :: r => radixFull 16 r
    | '0' :: 'o' :: r => radixFull 8 r
    | '0' :: 'O' :: r => radixFull 8 r
    | '0' :: 'b' :: r => radixFull 2 r
    | '0' :: 'B' :: r => radixFull 2 r
    | _ =>
      let p := signSplit l
      if p.2 = "Infinity".toList then (if p.1 then .negInf else .inf)
      else
        match decFull p.2 with
        | some d => .num (applySignDec p.1 d)
        | none => .nan

/-- Exponent part for `parseFloat`: best-effort longest valid suffix; an
ill-formed exponent contributes factor `10 ^ 0`. -/
def expOfRest (l : List Char) : ℤ :=
  let p := signSplit l
  let ds := (spanDigits p.2).1
  if ds.isEmpty then 0 else applySignInt p.1 (digitsVal ds)

/-- JavaScript `parseFloat` on a string: skips leading whitespace, reads the
longest decimal-literal prefix (or a signed `Infinity`), NaN when there is
no digit. -/
def jsParseFloatStr (s : String) : JsNum :=
  let l := s.toList.dropWhile isWsChar
  let p := signSplit l
  if p.2.take 8 = "Infinity".toList then (if p.1 then .negInf else .inf)
  else
    let p1 := spanDigits p.2
    let p2 := match p1.2 with
      | '.' :: rest => spanDigits rest
      | _ => ([], p1.2)
    if p1.1.isEmpty && p2.1.isEmpty then .nan
    else
      let base : Dec := ⟨(digitsVal p1.1 * tenPow p2.1.length + digitsVal p2.1 : ℤ), p2.1.length⟩
      let withExp : Dec := match p2.2 with
        | 'e' :: rest => base.mulPow10 (expOfRest rest)
        | 'E' :: rest => base.mulPow10 (expOfRest rest)
        | _ => base
      .num (applySignDec p.1 withExp)

/-- JavaScript `parseInt` (radix 10 or a `0x` prefix) on a string: skips
leading whitespace, reads the longest digit-run prefix after an optional
sign; `none` is NaN. -/
def jsParseIntStr (s : String) : Option ℤ :=
  let l := s.toList.dropWhile isWsChar
  let p := signSplit l
  match p.2 with
  | '0' :: 'x' :: rest =>
      let ds := rest.takeWhile (fun c => (radDig c).isSome)
      if ds.isEmpty then none
      else some (applySignInt p.1 (ds.foldl (fun a c => a * 16 + (radDig c).getD 0) 0))
  | '0' :: 'X' :: rest =>
      let ds := rest.takeWhile (fun c => (radDig c).isSome)
      if ds.isEmpty then none
      else some (applySignInt p.1 (ds.foldl (fun a c => a * 16 + (radDig c).getD 0) 0))
  | r =>
      let ds := (spanDigits r).1
      if ds.isEmpty then none else some (applySignInt p.1 (digitsVal ds))

/-- JavaScript `Number(v)` coercion of a JSON value. -/
def jsToNumber (v : Jval) : JsNum :=
  match v with
  | .jnull => .num ⟨0, 0⟩
  | .jbool b => .num ⟨if b then 1 else 0, 0⟩
  | .jnum d => .num d
  | .jstr s => jsStrToNumber s

/-- JavaScript global `isNaN(v)` (which coerces with `Number` first). -/
def jsIsNaN (v : Jval) : Bool := (jsToNumber v).isNaN

/-- JavaScript truthiness of a JSON value. -/
def jsTruthy (v : Jval) : Bool :=
  match v with
  | .jnull => false
  | .jbool b => b
  | .jnum d => d.m ≠ 0
  | .jstr s => s ≠ ""

/-- JavaScript `parseFloat(v)`: the argument is coerced to a string first
(`null` becomes `"null"`, booleans their names); for a JSON number the
`toString`/`parseFloat` round trip returns the same value. -/
def jsParseFloatVal (v : Jval) : JsNum :=
  match v with
  | .jnum d => .num d
  | .jstr s => jsParseFloatStr s
  | .jnull => jsParseFloatStr "null"
  | .jbool b => jsParseFloatStr (if b then "true" else "false")

/-- Truncation of a `Dec` toward zero (JavaScript `parseInt` on a number's
decimal string representation). -/
def Dec.trunc (d : Dec) : ℤ := d.m.tdiv (tenPow d.e)

/-- JavaScript `parseInt(v)` on a JSON value; `none` is NaN. -/
def jsParseIntVal (v : Jval) : Option ℤ :=
  match v with
  | .jnum d => some d.trunc
  | .jstr s => jsParseIntStr s
  | .jnull => jsParseIntStr "null"
  | .jbool b => jsParseIntStr (if b then "true" else "false")

/-! Ingestion loader (`parseAndInsertRecipes`, backend_server.js lines 60-125). -/

/-- Input recipe object as found in the bulk JSON document.  `none` models an
absent (`undefined`) field.  Nutrient map values are strings, as in the
dataset (for example `"389 kcal"`). -/
structure RecipeInput where
  cuisine : Option Jval
  title : Option Jval
  rating : Option Jval
  prep_time : Option Jval
  cook_time : Option Jval
  total_time : Option Jval
  description : Option Jval
  nutrients : Option (List (String × String))
  serves : Option Jval
deriving DecidableEq

/-- Stored table row.  `rating` keeps a full `JsNum` because the FLOAT column
accepts NaN and infinities; the INTEGER time columns only ever hold integers
(binding a NaN fails, see `intColumn`). -/
structure Row where
  id : ℕ
  cuisine : Option String
  title : Option String
  rating : Option JsNum
  prep_time : Option ℤ
  cook_time : Option ℤ
  total_time : Option ℤ
  description : Option String
  nutrients : List (String × String)
  serves : Option String
deriving DecidableEq

/-- Embeds backend_server.js line 81: a numeric field stores null when
`isNaN(raw)` holds or the raw value is the literal string `"NaN"`, otherwise
`parseFloat(raw)` (an absent field has `isNaN(undefined) = true`). -/
def sanitizeFloatField (v : Option Jval) : Option JsNum :=
  match v with
  | none => none
  | some x => if jsIsNaN x || x == Jval.jstr "NaN" then none else some (jsParseFloatVal x)

/-- JavaScript `parseInt` result as a `JsNum` (`none` from the parse is NaN). -/
def jsParseIntNum (v : Jval) : JsNum :=
  match jsParseIntVal v with
  | some n => .num ⟨n, 0⟩
  | none => .nan

/-- Embeds backend_server.js lines 82-84: the integer time fields use
`parseInt` instead of `parseFloat`, with the same NaN guard. -/
def sanitizeIntField (v : Option Jval) : Option JsNum :=
  match v with
  | none => none
  | some x => if jsIsNaN x || x == Jval.jstr "NaN" then none else some (jsParseIntNum x)

/-- Modelled Postgres parameter binding for an INTEGER column: NULL and
integral values bind, NaN or infinities make the INSERT fail (outer `none`). -/
def intColumn (v : Option JsNum) : Option (Option ℤ) :=
  match v with
  | none => some none
  | some (.num d) =>
      if d.m.tmod (tenPow d.e) = 0 then some (some (d.m.tdiv (tenPow d.e))) else none
  | some _ => none

/-- Embeds backend_server.js lines 87-94: drop every nutrients entry whose
value is the literal string `"NaN"` or fails the `isNaN` numeric coercion. -/
def sanitizeNutrients (l : List (String × String)) : List (String × String) :=
  l.filter (fun kv => !(kv.2 == "NaN" || jsIsNaN (Jval.jstr kv.2)))

/-- Embeds the `recipe.field || null` fallback (backend_server.js lines
100-108): any falsy value, including the empty string, stores as null. -/
def jsOrNull (v : Option Jval) : Option Jval :=
  match v with
  | none => none
  | some x => if jsTruthy x then some x else none

/-- Text rendering of the JSON value actually bound for a text column (the
driver stringifies non-string values). -/
def jvalText (v : Jval) : String :=
  match v with
  | .jstr s => s
  | .jnull => "null"
  | .jbool b => if b then "true" else "false"
  | .jnum d => toString d.m ++ (if d.e = 0 then "" else "e-" ++ toString d.e)

/-- Stored value of a text column. -/
def textColumn (v : Option Jval) : Option String := (jsOrNull v).map jvalText

/-- One INSERT from backend_server.js lines 96-109; `none` when the record's
INSERT fails (the per-record catch logs and skips it). -/
def buildRowE (rid : ℕ) (r : RecipeInput) : Option Row :=
  match intColumn (sanitizeIntField r.prep_time),
        intColumn (sanitizeIntField r.cook_time),
        intColumn (sanitizeIntField r.total_time) with
  | some pt, some ct, some tt =>
      some { id := rid
             cuisine := textColumn r.cuisine
             title := textColumn r.title
             rating := sanitizeFloatField r.rating
             prep_time := pt
             cook_time := ct
             total_time := tt
             description := textColumn r.description
             nutrients := sanitizeNutrients (r.nutrients.getD [])
             serves := textColumn r.serves }
  | _, _, _ => none

/-- Embeds `parseAndInsertRecipes` (backend_server.js lines 60-125) as a table
transformer: if the table already holds a row the whole run is skipped,
otherwise each record is inserted in order, records whose INSERT fails being
skipped individually. -/
def parseAndInsertRecipes (d : List RecipeInput) (t : List Row) : List Row :=
  if 0 < t.length then t
  else d.foldl (fun acc r =>
    match buildRowE (acc.length + 1) r with
    | some row => acc ++ [row]
    | none => acc) t

/-! Query builder and the two read endpoints (backend_server.js 130-295). -/

/-- Comparison operator recognised by the filter grammar. -/
inductive CmpOp where
  | ge | le | gt | lt | eq
deriving DecidableEq

/-- Positional SQL parameter value as pushed into `queryParams`. -/
inductive Param where
  | pstr (s : String)
  | pnum (v : JsNum)
deriving DecidableEq

/-- One member of `whereConditions`, holding its `$n` placeholder number.
The SQL text of each constructor is fixed by the source (ILIKE patterns for
the text columns, comparisons for the numeric ones, and
`CAST(nutrients->>[calories] AS INTEGER)` for calories). -/
inductive SqlCond where
  | titleLike (p : ℕ)
  | cuisineLike (p : ℕ)
  | ratingCmp (op : CmpOp) (p : ℕ)
  | totalTimeCmp (op : CmpOp) (p : ℕ)
  | caloriesCmp (op : CmpOp) (p : ℕ)
deriving DecidableEq

/-- Filter query parameters of `/api/recipes/search`; `none` is an absent
parameter. -/
structure SearchFilters where
  title : Option String
  cuisine : Option String
  rating : Option String
  total_time : Option String
  calories : Option String
deriving DecidableEq

def emptyFilters : SearchFilters := ⟨none, none, none, none, none⟩

/-- Operator-prefix chain shared by the rating / total_time / calories
branches (startsWith checks in source order, then the bare value). -/
def cmpChain (s : String) : CmpOp × String :=
  match s.toList with
  | '>' :: '=' :: r => (.ge, String.mk r)
  | '<' :: '=' :: r => (.le, String.mk r)
  | '>' :: r => (.gt, String.mk r)
  | '<' :: r => (.lt, String.mk r)
  | '=' :: r => (.eq, String.mk r)
  | _ => (.eq, s)

/-- First run of digits anywhere in the string (`calories.match(/\d+/)`). -/
def firstDigitRun (s : String) : Option String :=
  let ds := (s.toList.dropWhile (fun c => !isDig c)).takeWhile isDig
  if ds.isEmpty then none else some (String.mk ds)

/-- Builder state: `whereConditions`, `queryParams` and `paramCount`. -/
structure BuildState where
  conds : List SqlCond
  params : List Param
  paramCount : ℕ
deriving DecidableEq

/-- Title branch (lines 173-177). -/
def addTitle (f : Option String) (st : BuildState) : BuildState :=
  match f with
  | some s =>
      if s ≠ "" then
        { conds := st.conds ++ [.titleLike (st.paramCount + 1)]
          params := st.params ++ [.pstr ("%" ++ s ++ "%")]
          paramCount := st.paramCount + 1 }
      else st
  | none => st

/-- Cuisine branch (lines 179-183). -/
def addCuisine (f : Option String) (st : BuildState) : BuildState :=
  match f with
  | some s =>
      if s ≠ "" then
        { conds := st.conds ++ [.cuisineLike (st.paramCount + 1)]
          params := st.params ++ [.pstr ("%" ++ s ++ "%")]
          paramCount := st.paramCount + 1 }
      else st
  | none => st

/-- Rating branch (lines 185-206): the operator chain picks the comparison
and the remainder goes through `parseFloat`, NaN included. -/
def addRating (f : Option String) (st : BuildState) : BuildState :=
  match f with
  | some s =>
      if s ≠ "" then
        { conds := st.conds ++ [.ratingCmp (cmpChain s).1 (st.paramCount + 1)]
          params := st.params ++ [.pnum (jsParseFloatStr (cmpChain s).2)]
          paramCount := st.paramCount + 1 }
      else st
  | none => st

/-- JavaScript `parseInt` on a string as a `JsNum`. -/
def jsParseIntNumStr (s : String) : JsNum :=
  match jsParseIntStr s with
  | some n => .num ⟨n, 0⟩
  | none => .nan

/-- Total_time branch (lines 208-229), like rating but with `parseInt`. -/
def addTotalTime (f : Option String) (st : BuildState) : BuildState :=
  match f with
  | some s =>
      if s ≠ "" then
        { conds := st.conds ++ [.totalTimeCmp (cmpChain s).1 (st.paramCount + 1)]
          params := st.params ++ [.pnum (jsParseIntNumStr (cmpChain s).2)]
          paramCount := st.paramCount + 1 }
      else st
  | none => st

/-- Calories branch (lines 231-250): `paramCount` is incremented before the
digit check, and the condition and parameter are only pushed when the filter
value contains a digit run. -/
def addCalories (f : Option String) (st : BuildState) : BuildState :=
  match f with
  | some s =>
      if s ≠ "" then
        match firstDigitRun s with
        | some ds =>
            { conds := st.conds ++ [.caloriesCmp (cmpChain s).1 (st.paramCount + 1)]
              params := st.params ++ [.pnum (jsParseIntNumStr ds)]
              paramCount := st.paramCount + 1 }
        | none => { st with paramCount := st.paramCount + 1 }
      else st
  | none => st

/-- Built query: conditions, filter parameters, and the placeholder numbers
taken by the LIMIT and OFFSET clauses (lines 265-271). -/
structure BuiltQuery where
  conds : List SqlCond
  params : List Param
  limitIdx : ℕ
  offsetIdx : ℕ
deriving DecidableEq

/-- The whole dynamic query construction of the search handler, in source
order: title, cuisine, rating, total_time, calories, then LIMIT and OFFSET
take the next two placeholder numbers. -/
def buildSearchQuery (f : SearchFilters) : BuiltQuery :=
  let st := addCalories f.calories
    (addTotalTime f.total_time
      (addRating f.rating
        (addCuisine f.cuisine
          (addTitle f.title ⟨[], [], 0⟩))))
  ⟨st.conds, st.params, st.paramCount + 1, st.paramCount + 2⟩

/-! Pagination parsing. -/

/-- Listing page (line 132): `parseInt(req.query.page) || 1`, so absent,
non-numeric and `0` all fall back to `1`. -/
def listPage (pq : Option String) : ℤ :=
  match pq with
  | none => 1
  | some s =>
      match jsParseIntStr s with
      | some n => if n = 0 then 1 else n
      | none => 1

/-- Listing limit (line 133): `Math.min(parseInt(req.query.limit) || 10, 50)`. -/
def listLimit (lq : Option String) : ℤ :=
  let v : ℤ := match lq with
    | none => 10
    | some s =>
        match jsParseIntStr s with
        | some n => if n = 0 then 10 else n
        | none => 10
  if v ≤ 50 then v else 50

/-- Search page (lines 166 and 261): destructuring default `1` applies only
when the parameter is absent; otherwise raw `parseInt`, whose NaN (`none`)
is not replaced by any default. -/
def searchPage (pq : Option String) : Option ℤ :=
  match pq with
  | none => some 1
  | some s => jsParseIntStr s

/-- Search limit (lines 166 and 262): default `10` only when absent, then
`Math.min(.., 50)`; `Math.min(NaN, 50)` is NaN (`none`). -/
def searchLimit (lq : Option String) : Option ℤ :=
  (match lq with
   | none => some 10
   | some s => jsParseIntStr s).map (fun n => if n ≤ 50 then n else 50)

/-! Modelled Postgres evaluation of the generated SQL. -/

/-- Positional parameter lookup: `$n` refers to the n-th supplied parameter,
`none` when the query references a parameter that was not supplied (Postgres
rejects such a query). -/
def getParam (ps : List Param) (n : ℕ) : Option Param := ps[n - 1]?

/-- Integer comparison as an `Ordering`. -/
def intCmp (a b : ℤ) : Ordering :=
  if a < b then .lt else if a = b then .eq else .gt

/-- Postgres float8 comparison: NaN is equal to itself and greater than every
other value; infinities order as expected. -/
def pgNumCmp (a b : JsNum) : Ordering :=
  match a, b with
  | .num x, .num y => if x.ltb y then .lt else if y.ltb x then .gt else .eq
  | _, _ =>
      let rank : JsNum → ℕ := fun v =>
        match v with
        | .negInf => 0
        | .num _ => 1
        | .inf => 2
        | .nan => 3
      intCmp (rank a) (rank b)

def applyCmp (op : CmpOp) (o : Ordering) : Bool :=
  match op with
  | .ge => o ≠ .lt
  | .le => o ≠ .gt
  | .gt => o = .gt
  | .lt => o = .lt
  | .eq => o = .eq

/-- Modelled Postgres `CAST(text AS INTEGER)`: optional surrounding
whitespace, optional sign, then digits only; anything else raises an error
(`none`). -/
def pgCastTextToInt (s : String) : Option ℤ :=
  let l := ((s.toList.dropWhile isWsChar).reverse.dropWhile isWsChar).reverse
  let p := signSplit l
  if p.2.isEmpty || !(p.2.all isDig) then none
  else some (applySignInt p.1 (digitsVal p.2))

/-- Modelled Postgres parameter conversion to an int (for INTEGER
comparisons and for LIMIT/OFFSET): only finite integral values convert. -/
def toIntParam (v : JsNum) : Option ℤ :=
  match v with
  | .num d => if d.m.tmod (tenPow d.e) = 0 then some (d.m.tdiv (tenPow d.e)) else none
  | _ => none

/-- Condition with its parameter bound (after the bind phase). -/
inductive BCond where
  | titleLike (inner : String)
  | cuisineLike (inner : String)
  | ratingCmp (op : CmpOp) (v : JsNum)
  | totalTimeCmp (op : CmpOp) (v : ℤ)
  | caloriesCmp (op : CmpOp) (v : ℤ)
deriving DecidableEq

/-- Bind one condition against the supplied parameter list; `none` is a bind
error (missing parameter, or a value such as NaN that does not convert to
the column's type). -/
def bindCond (ps : List Param) (c : SqlCond) : Option BCond :=
  match c with
  | .titleLike i =>
      match getParam ps i with
      | some (.pstr p) => some (.titleLike (String.mk ((p.toList.drop 1).dropLast)))
      | _ => none
  | .cuisineLike i =>
      match getParam ps i with
      | some (.pstr p) => some (.cuisineLike (String.mk ((p.toList.drop 1).dropLast)))
      | _ => none
  | .ratingCmp op i =>
      match getParam ps i with
      | some (.pnum v) => some (.ratingCmp op v)
      | _ => none
  | .totalTimeCmp op i =>
      match getParam ps i with
      | some (.pnum v) => (toIntParam v).map (.totalTimeCmp op)
      | _ => none
  | .caloriesCmp op i =>
      match getParam ps i with
      | some (.pnum v) => (toIntParam v).map (.caloriesCmp op)
      | _ => none

/-- ASCII lowering (models ILIKE case folding). -/
def lcChar (c : Char) : Char :=
  if 'A' ≤ c && c ≤ 'Z' then Char.ofNat (c.toNat + 32) else c

/-- Contiguous-segment containment of character lists. -/
def containsSeg (pat : List Char) : List Char → Bool
  | [] => pat.isEmpty
  | c :: t => pat.isPrefixOf (c :: t) || containsSeg pat t

/-- Case-insensitive substring test: `hay ILIKE concat of percent, pat,
percent` for values without wildcard characters of their own. -/
def ciContains (hay pat : String) : Bool :=
  containsSeg (pat.toList.map lcChar) (hay.toList.map lcChar)

/-- Row-level truth value of one bound condition; `none` is a runtime SQL
error (the calories CAST failing on a non-integer stored string).  A NULL
column never satisfies a comparison. -/
def evalBCond (r : Row) (c : BCond) : Option Bool :=
  match c with
  | .titleLike inner =>
      some (match r.title with
        | none => false
        | some t => ciContains t inner)
  | .cuisineLike inner =>
      some (match r.cuisine with
        | none => false
        | some t => ciContains t inner)
  | .ratingCmp op v =>
      some (match r.rating with
        | none => false
        | some rv => applyCmp op (pgNumCmp rv v))
  | .totalTimeCmp op v =>
      some (match r.total_time with
        | none => false
        | some tv => applyCmp op (intCmp tv v))
  | .caloriesCmp op v =>
      match r.nutrients.lookup "calories" with
      | none => some false
      | some s => (pgCastTextToInt s).map (fun cv => applyCmp op (intCmp cv v))

/-- AND of all bound conditions on one row. -/
def evalRow (bs : List BCond) (r : Row) : Option Bool :=
  bs.foldlM (fun acc c => (evalBCond r c).map (fun b => acc && b)) true

/-- WHERE-filtered rows of a table; `none` as soon as any row raises. -/
def filterRows (bs : List BCond) : List Row → Option (List Row)
  | [] => some []
  | r :: rest =>
      match evalRow bs r, filterRows bs rest with
      | some b, some tail => some (if b then r :: tail else tail)
      | _, _ => none

/-! Ordering: `ORDER BY rating DESC NULLS LAST, id ASC`. -/

/-- Sort group of the rating column under `rating DESC NULLS LAST` in
Postgres: NaN sorts above infinity, which sorts above every finite value;
NULLs come last. -/
def ratingGroup : Option JsNum → ℕ
  | some .nan => 0
  | some .inf => 1
  | some (.num _) => 2
  | some .negInf => 3
  | none => 4

/-- Finite rating value used inside its group (zero for the others). -/
def ratingDec : Option JsNum → Dec
  | some (.num d) => d
  | _ => ⟨0, 0⟩

/-- Boolean form of the row ordering: rating descending with NULLs last,
ties broken by ascending id. -/
def rowLEb (a b : Row) : Bool :=
  let g1 := ratingGroup a.rating
  let g2 := ratingGroup b.rating
  if g1 < g2 then true
  else if g2 < g1 then false
  else
    let da := ratingDec a.rating
    let db := ratingDec b.rating
    if db.ltb da then true
    else if da.ltb db then false
    else decide (a.id ≤ b.id)

/-- The row ordering as a relation. -/
def rowLE (a b : Row) : Prop := rowLEb a b = true

instance : DecidableRel rowLE := fun a b => inferInstanceAs (Decidable (rowLEb a b = true))

/-- Semantic sort key of a row, in a lexicographic linear order. -/
def rowKey (r : Row) : ℕ ×ₗ ℚ ×ₗ ℕ :=
  toLex (ratingGroup r.rating, toLex (-(ratingDec r.rating).toRat, r.id))

theorem rowLEb_iff (a b : Row) : rowLEb a b = true ↔ rowKey a ≤ rowKey b := by
  have hgoal : rowKey a ≤ rowKey b ↔
      (ratingGroup a.rating < ratingGroup b.rating ∨
        (ratingGroup a.rating = ratingGroup b.rating ∧
          (-(ratingDec a.rating).toRat < -(ratingDec b.rating).toRat ∨
            (-(ratingDec a.rating).toRat = -(ratingDec b.rating).toRat ∧ a.id ≤ b.id)))) := by
    rw [rowKey, rowKey, Prod.Lex.le_iff]
    simp only [Prod.Lex.le_iff]
  rw [hgoal, rowLEb]
  simp only []
  split_ifs with h1 h2 h3 h4
  · simp only [true_iff]
    exact Or.inl h1
  · simp only [Bool.false_eq_true, false_iff]
    rintro (h | ⟨heq, -⟩)
    · omega
    · omega
  · have h3' : (ratingDec b.rating).toRat < (ratingDec a.rating).toRat :=
      (Dec.ltb_iff _ _).mp h3
    simp only [true_iff]
    exact Or.inr ⟨by omega, Or.inl (by linarith)⟩
  · have h4' : (ratingDec a.rating).toRat < (ratingDec b.rating).toRat :=
      (Dec.ltb_iff _ _).mp h4
    simp only [Bool.false_eq_true, false_iff]
    rintro (h | ⟨-, hinner⟩)
    · omega
    · rcases hinner with hlt2 | ⟨heq2, -⟩
      · linarith
      · have : (ratingDec a.rating).toRat = (ratingDec b.rating).toRat := neg_inj.mp heq2
        linarith
  · have h3' : ¬ (ratingDec b.rating).toRat < (ratingDec a.rating).toRat := by
      rw [← Dec.ltb_iff]; simpa using h3
    have h4' : ¬ (ratingDec a.rating).toRat < (ratingDec b.rating).toRat := by
      rw [← Dec.ltb_iff]; simpa using h4
    have heqr : (ratingDec a.rating).toRat = (ratingDec b.rating).toRat := by linarith
    rw [decide_eq_true_iff]
    constructor
    · intro hid
      exact Or.inr ⟨by omega, Or.inr ⟨by rw [heqr], hid⟩⟩
    · rintro (h | ⟨-, hinner⟩)
      · omega
      · rcases hinner with hlt2 | ⟨-, hid⟩
        · exfalso; rw [heqr] at hlt2; exact lt_irrefl _ hlt2
        · exact hid

theorem rowLE_iff (a b : Row) : rowLE a b ↔ rowKey a ≤ rowKey b := rowLEb_iff a b

instance : IsTotal Row rowLE :=
  ⟨fun a b => by
    rcases le_total (rowKey a) (rowKey b) with h | h
    · exact Or.inl ((rowLE_iff a b).mpr h)
    · exact Or.inr ((rowLE_iff b a).mpr h)⟩

instance : IsTrans Row rowLE :=
  ⟨fun a b c hab hbc =>
    (rowLE_iff a c).mpr (le_trans ((rowLE_iff a b).mp hab) ((rowLE_iff b c).mp hbc))⟩

/-- The ORDER BY executed over a result set (both endpoints share the same
clause; ties beyond the key cannot occur because ids are unique). -/
def sortRows (l : List Row) : List Row := List.insertionSort rowLE l

/-- ORDER BY clause of the listing endpoint (backend_server.js line 145). -/
def recipesOrderBySql : String := "ORDER BY rating DESC NULLS LAST, id ASC"

/-- ORDER BY clause of the search endpoint (backend_server.js line 258). -/
def searchOrderBySql : String := "ORDER BY rating DESC NULLS LAST, id ASC"

/-! The two endpoints. -/

/-- Response shape shared by listing and search. -/
structure ApiResponse where
  page : ℤ
  limit : ℤ
  total : ℕ
  data : List Row
deriving DecidableEq

/-- Embeds `GET /api/recipes` (lines 130-161): count, then the ordered page.
`none` is the data-access failure path (here:  a negative LIMIT or OFFSET,
which Postgres rejects). -/
def getApiRecipes (pq lq : Option String) (t : List Row) : Option ApiResponse :=
  let page := listPage pq
  let limit := listLimit lq
  let off := (page - 1) * limit
  if limit < 0 ∨ off < 0 then none
  else some ⟨page, limit, t.length, ((sortRows t).drop off.toNat).take limit.toNat⟩

/-- LIMIT/OFFSET parameter conversion: a nonnegative integral number. -/
def paramNonnegInt (p : Param) : Option ℕ :=
  match p with
  | .pnum v =>
      match toIntParam v with
      | some n => if n < 0 then none else some n.toNat
      | none => none
  | .pstr _ => none

/-- Embeds `GET /api/recipes/search` (lines 164-295): build the query, bind
its parameters, filter, order and paginate, then run the count query over
the same conditions with `queryParams.slice(0, -2)`.  `none` is the caught
error path answered with HTTP 500. -/
def getApiRecipesSearch (f : SearchFilters) (pq lq : Option String)
    (t : List Row) : Option ApiResponse := do
  let q := buildSearchQuery f
  let pageNum ← searchPage pq
  let limitNum ← searchLimit lq
  let off := (pageNum - 1) * limitNum
  let allParams := q.params ++ [Param.pnum (.num ⟨limitNum, 0⟩), Param.pnum (.num ⟨off, 0⟩)]
  let lp ← getParam allParams q.limitIdx
  let op ← getParam allParams q.offsetIdx
  let li ← paramNonnegInt lp
  let oi ← paramNonnegInt op
  let bs ← q.conds.mapM (bindCond allParams)
  let matched ← filterRows bs t
  let cbs ← q.conds.mapM (bindCond (allParams.dropLast.dropLast))
  let cmatched ← filterRows cbs t
  pure ⟨pageNum, limitNum, cmatched.length, ((sortRows matched).drop oi).take li⟩

/-- Conditions of the data query after binding, for stating that the count
uses the same predicate. -/
def searchDataConds (f : SearchFilters) (pq lq : Option String) :
    Option (List BCond) := do
  let q := buildSearchQuery f
  let pageNum ← searchPage pq
  let limitNum ← searchLimit lq
  let off := (pageNum - 1) * limitNum
  let allParams := q.params ++ [Param.pnum (.num ⟨limitNum, 0⟩), Param.pnum (.num ⟨off, 0⟩)]
  q.conds.mapM (bindCond allParams)

/-! The `recipes_with_calories` view (database_setup.sql lines 33-51). -/

/-- Modelled Postgres `CAST(text AS FLOAT)` for the strings produced by the
view's `REGEXP_REPLACE` (digits and dots): sign then a full decimal literal. -/
def pgCastTextToFloat (s : String) : Option Dec :=
  let l := ((s.toList.dropWhile isWsChar).reverse.dropWhile isWsChar).reverse
  let p := signSplit l
  (decFull p.2).map (applySignDec p.1)

/-- Column `calories_numeric` of the view: when the stored calories string
starts with a digit run, strip every character other than digits and dots
and cast the remainder to FLOAT; otherwise NULL. -/
def viewCaloriesNumeric (r : Row) : Option Dec :=
  match r.nutrients.lookup "calories" with
  | none => none
  | some s =>
      match s.toList with
      | c :: _ =>
          if isDig c then
            pgCastTextToFloat (String.mk (s.toList.filter (fun ch => isDig ch || ch = '.')))
          else none
      | [] => none

/-! Structural facts about the query builder. -/

/-- Placeholder number referenced by a condition. -/
def condIdx : SqlCond → ℕ
  | .titleLike i => i
  | .cuisineLike i => i
  | .ratingCmp _ i => i
  | .totalTimeCmp _ i => i
  | .caloriesCmp _ i => i

/-- Every condition references a placeholder inside the first `n` parameters. -/
def condsBounded (cs : List SqlCond) (n : ℕ) : Prop :=
  ∀ c ∈ cs, 1 ≤ condIdx c ∧ condIdx c ≤ n

/-- Builder invariant holding before the calories branch: conditions are
bounded and the parameter counter equals the number of pushed parameters. -/
def stEq (st : BuildState) : Prop :=
  condsBounded st.conds st.params.length ∧ st.paramCount = st.params.length

theorem addTitle_stEq (f : Option String) (st : BuildState) (h : stEq st) :
    stEq (addTitle f st) := by
  rcases h with ⟨hb, hc⟩
  cases f with
  | none => exact ⟨hb, hc⟩
  | some s =>
      rw [addTitle]
      split_ifs with hs
      · refine ⟨?_, by simp [hc]⟩
        intro c hcmem
        rcases List.mem_append.mp hcmem with hold | hnew
        · have := hb c hold
          simp only [List.length_append, List.length_cons, List.length_nil]
          omega
        · simp only [List.mem_singleton] at hnew
          subst hnew
          simp [condIdx, hc]
      · exact ⟨hb, hc⟩

theorem addCuisine_stEq (f : Option String) (st : BuildState) (h : stEq st) :
    stEq (addCuisine f st) := by
  rcases h with ⟨hb, hc⟩
  cases f with
  | none => exact ⟨hb, hc⟩
  | some s =>
      rw [addCuisine]
      split_ifs with hs
      · refine ⟨?_, by simp [hc]⟩
        intro c hcmem
        rcases List.mem_append.mp hcmem with hold | hnew
        · have := hb c hold
          simp only [List.length_append, List.length_cons, List.length_nil]
          omega
        · simp only [List.mem_singleton] at hnew
          subst hnew
          simp [condIdx, hc]
      · exact ⟨hb, hc⟩

theorem addRating_stEq (f : Option String) (st : BuildState) (h : stEq st) :
    stEq (addRating f st) := by
  rcases h with ⟨hb, hc⟩
  cases f with
  | none => exact ⟨hb, hc⟩
  | some s =>
      rw [addRating]
      split_ifs with hs
      · refine ⟨?_, by simp [hc]⟩
        intro c hcmem
        rcases List.mem_append.mp hcmem with hold | hnew
        · have := hb c hold
          simp only [List.length_append, List.length_cons, List.length_nil]
          omega
        · simp only [List.mem_singleton] at hnew
          subst hnew
          simp [condIdx, hc]
      · exact ⟨hb, hc⟩

theorem addTotalTime_stEq (f : Option String) (st : BuildState) (h : stEq st) :
    stEq (addTotalTime f st) := by
  rcases h with ⟨hb, hc⟩
  cases f with
  | none => exact ⟨hb, hc⟩
  | some s =>
      rw [addTotalTime]
      split_ifs with hs
      · refine ⟨?_, by simp [hc]⟩
        intro c hcmem
        rcases List.mem_append.mp hcmem with hold | hnew
        · have := hb c hold
          simp only [List.length_append, List.length_cons, List.length_nil]
          omega
        · simp only [List.mem_singleton] at hnew
          subst hnew
          simp [condIdx, hc]
      · exact ⟨hb, hc⟩

/-- After the calories branch only the weaker invariant survives: the counter
may exceed the number of parameters (digit-free value), but conditions stay
bounded. -/
theorem addCalories_wf (f : Option String) (st : BuildState) (h : stEq st) :
    condsBounded (addCalories f st).conds (addCalories f st).params.length ∧
      (addCalories f st).params.length ≤ (addCalories f st).paramCount := by
  rcases h with ⟨hb, hc⟩
  cases f with
  | none => exact ⟨hb, le_of_eq hc.symm⟩
  | some s =>
      rw [addCalories]
      split_ifs with hs
      · cases hdr : firstDigitRun s with
        | some ds =>
            refine ⟨?_, by simp [hc]⟩
            intro c hcmem
            rcases List.mem_append.mp hcmem with hold | hnew
            · have := hb c hold
              simp only [List.length_append, List.length_cons, List.length_nil]
              omega
            · simp only [List.mem_singleton] at hnew
              subst hnew
              simp [condIdx, hc]
        | none =>
            refine ⟨hb, ?_⟩
            simp only []
            omega
      · exact ⟨hb, le_of_eq hc.symm⟩

theorem buildSearchQuery_wf (f : SearchFilters) :
    condsBounded (buildSearchQuery f).conds (buildSearchQuery f).params.length ∧
      (buildSearchQuery f).params.length + 2 ≤ (buildSearchQuery f).offsetIdx ∧
      (buildSearchQuery f).limitIdx + 1 = (buildSearchQuery f).offsetIdx := by
  have h0 : stEq (⟨[], [], 0⟩ : BuildState) := by
    constructor
    · intro c hc; cases hc
    · rfl
  have h1 := addTitle_stEq f.title _ h0
  have h2 := addCuisine_stEq f.cuisine _ h1
  have h3 := addRating_stEq f.rating _ h2
  have h4 := addTotalTime_stEq f.total_time _ h3
  have h5 := addCalories_wf f.calories _ h4
  rw [buildSearchQuery]
  exact ⟨h5.1, by simp only []; omega, rfl⟩

/-! Parameter binding only depends on the filter parameters. -/

theorem getParam_append (ps qs : List Param) (n : ℕ)
    (h1 : 1 ≤ n) (h2 : n ≤ ps.length) :
    getParam (ps ++ qs) n = getParam ps n := by
  rw [getParam, getParam, List.getElem?_append_left (by omega)]

theorem bindCond_append (ps qs : List Param) (c : SqlCond)
    (h1 : 1 ≤ condIdx c) (h2 : condIdx c ≤ ps.length) :
    bindCond (ps ++ qs) c = bindCond ps c := by
  cases c <;>
    simp only [condIdx] at h1 h2 <;>
    simp only [bindCond, getParam_append ps qs _ h1 h2]

theorem mapM_bindCond_append (ps qs : List Param) (cs : List SqlCond)
    (h : condsBounded cs ps.length) :
    cs.mapM (bindCond (ps ++ qs)) = cs.mapM (bindCond ps) := by
  induction cs with
  | nil => rfl
  | cons c rest ih =>
      have hc := h c (List.mem_cons_self c rest)
      have hrest : condsBounded rest ps.length := fun d hd => h d (List.mem_cons_of_mem c hd)
      rw [List.mapM_cons, List.mapM_cons, bindCond_append ps qs c hc.1 hc.2, ih hrest]

theorem dropLast_two (ps : List Param) (a b : Param) :
    (ps ++ [a, b]).dropLast.dropLast = ps := by
  have h1 : ps ++ [a, b] = (ps ++ [a]) ++ [b] := by simp
  rw [h1, List.dropLast_concat, List.dropLast_concat]

/-! Filtering facts. -/

theorem filterRows_eq_filter (bs : List BCond) (t m : List Row)
    (h : filterRows bs t = some m) :
    m = t.filter (fun r => evalRow bs r == some true) := by
  induction t generalizing m with
  | nil =>
      rw [filterRows] at h
      cases h
      rfl
  | cons r rest ih =>
      rw [filterRows] at h
      cases hev : evalRow bs r with
      | none => rw [hev] at h; cases h
      | some b =>
          rw [hev] at h
          cases hrec : filterRows bs rest with
          | none => rw [hrec] at h; cases h
          | some tail =>
              rw [hrec] at h
              cases h
              rw [List.filter_cons]
              cases b with
              | true => simp [hev, ih tail hrec]
              | false => simp [hev, ih tail hrec]

/-! Characterisation of a successful search request. -/

theorem toIntParam_whole (n : ℤ) : toIntParam (.num ⟨n, 0⟩) = some n := by
  simp [toIntParam, tenPow]

theorem paramNonnegInt_whole (n : ℤ) :
    paramNonnegInt (.pnum (.num ⟨n, 0⟩)) =
      if n < 0 then none else some n.toNat := by
  rw [paramNonnegInt, toIntParam_whole]

theorem searchSome_spec (f : SearchFilters) (pq lq : Option String)
    (t : List Row) (resp : ApiResponse)
    (h : getApiRecipesSearch f pq lq t = some resp) :
    ∃ (pageNum limitNum : ℤ) (bs : List BCond) (matched : List Row),
      searchPage pq = some pageNum ∧
      searchLimit lq = some limitNum ∧
      0 ≤ limitNum ∧
      0 ≤ (pageNum - 1) * limitNum ∧
      (buildSearchQuery f).conds.mapM (bindCond (buildSearchQuery f).params) = some bs ∧
      filterRows bs t = some matched ∧
      resp = ⟨pageNum, limitNum, matched.length,
        ((sortRows matched).drop ((pageNum - 1) * limitNum).toNat).take limitNum.toNat⟩ := by
  simp only [getApiRecipesSearch, Option.bind_eq_bind, Option.bind_eq_some,
    Option.pure_def, Option.some.injEq] at h
  obtain ⟨pageNum, hp, limitNum, hl, lp, hlp, op, hop, li, hli, oi, hoi,
    bs, hbs, matched, hm, cbs, hcbs, cmatched, hcm, heq⟩ := h
  obtain ⟨hwf, hoff2, hlim1⟩ := buildSearchQuery_wf f
  set q := buildSearchQuery f with hq
  set off : ℤ := (pageNum - 1) * limitNum with hoffdef
  set allParams : List Param :=
    q.params ++ [Param.pnum (.num ⟨limitNum, 0⟩), Param.pnum (.num ⟨off, 0⟩)] with hap
  have hlen : allParams.length = q.params.length + 2 := by simp [hap]
  have hoplt : q.offsetIdx - 1 < allParams.length := by
    rw [getParam] at hop
    exact (List.getElem?_eq_some.mp hop).1
  have hidx : q.offsetIdx = q.params.length + 2 := by omega
  have hlidx : q.limitIdx = q.params.length + 1 := by omega
  have hopval : op = Param.pnum (.num ⟨off, 0⟩) := by
    rw [getParam, hidx] at hop
    have : (q.params.length + 2 - 1) = q.params.length + 1 := by omega
    rw [this, List.getElem?_append_right (by omega)] at hop
    simp only [Nat.add_sub_cancel_left] at hop
    cases hop
    rfl
  have hlpval : lp = Param.pnum (.num ⟨limitNum, 0⟩) := by
    rw [getParam, hlidx] at hlp
    have : (q.params.length + 1 - 1) = q.params.length := by omega
    rw [this, List.getElem?_append_right (by omega)] at hlp
    simp only [Nat.sub_self] at hlp
    cases hlp
    rfl
  rw [hlpval, paramNonnegInt_whole] at hli
  rw [hopval, paramNonnegInt_whole] at hoi
  have hlimnn : ¬ limitNum < 0 := by
    by_contra hc
    rw [if_pos hc] at hli
    cases hli
  have hoffnn : ¬ off < 0 := by
    by_contra hc
    rw [if_pos hc] at hoi
    cases hoi
  rw [if_neg hlimnn] at hli
  rw [if_neg hoffnn] at hoi
  cases hli
  cases hoi
  have hbs' : q.conds.mapM (bindCond q.params) = some bs := by
    rw [← mapM_bindCond_append q.params
        [Param.pnum (.num ⟨limitNum, 0⟩), Param.pnum (.num ⟨off, 0⟩)] q.conds hwf]
    exact hbs
  have hdrop : allParams.dropLast.dropLast = q.params := by
    rw [hap]
    exact dropLast_two _ _ _
  rw [hdrop, hbs'] at hcbs
  injection hcbs with hcbs_eq
  subst hcbs_eq
  rw [hm] at hcm
  injection hcm with hcm_eq
  subst hcm_eq
  exact ⟨pageNum, limitNum, bs, matched, hp, hl, by omega, by omega, hbs', hm, heq.symm⟩

/-! Slices of an ordered result set. -/

theorem slice_pairwise {l : List Row} (h : l.Pairwise rowLE) (o n : ℕ) :
    ((l.drop o).take n).Pairwise rowLE :=
  List.Pairwise.sublist ((List.take_sublist n (l.drop o)).trans (List.drop_sublist o l)) h

theorem slice_mem_getElem {l : List Row} {o n : ℕ} {x : Row}
    (hx : x ∈ (l.drop o).take n) :
    ∃ i, i < n ∧ l[o + i]? = some x := by
  obtain ⟨i, hi, hxi⟩ := List.mem_iff_getElem.mp hx
  have hin : i < n := by
    have := hi
    rw [List.length_take] at this
    omega
  have h1 : ((l.drop o).take n)[i]? = some x := by
    rw [List.getElem?_eq_getElem hi, hxi]
  rw [List.getElem?_take_of_lt hin, List.getElem?_drop] at h1
  exact ⟨i, hin, h1⟩

theorem slice_disjoint_ids {l : List Row} (hids : (l.map Row.id).Nodup)
    {o1 n1 o2 n2 : ℕ} (hsep : o1 + n1 ≤ o2 ∨ o2 + n2 ≤ o1) :
    ∀ x ∈ (l.drop o1).take n1, ∀ y ∈ (l.drop o2).take n2, x.id ≠ y.id := by
  intro x hx y hy heq
  obtain ⟨i, hin, hxi⟩ := slice_mem_getElem hx
  obtain ⟨j, hjn, hyj⟩ := slice_mem_getElem hy
  have hmapi : (l.map Row.id)[o1 + i]? = some x.id := by
    rw [List.getElem?_map, hxi, Option.map_some']
  have hmapj : (l.map Row.id)[o2 + j]? = some y.id := by
    rw [List.getElem?_map, hyj, Option.map_some']
  have hjlen : o2 + j < (l.map Row.id).length := by
    rcases List.getElem?_eq_some.mp hmapj with ⟨hlt, -⟩
    exact hlt
  have hilen : o1 + i < (l.map Row.id).length := by
    rcases List.getElem?_eq_some.mp hmapi with ⟨hlt, -⟩
    exact hlt
  have hall := List.nodup_iff_getElem?_ne_getElem?.mp hids
  rcases hsep with hs | hs
  · exact hall (o1 + i) (o2 + j) (by omega) hjlen (by rw [hmapi, hmapj, heq])
  · exact hall (o2 + j) (o1 + i) (by omega) hilen (by rw [hmapi, hmapj, heq])

/-- Two distinct pages with a common limit occupy separated (or empty)
index windows. -/
theorem pages_sep (p1 p2 k : ℤ) (hk : 0 ≤ k)
    (h1 : 0 ≤ (p1 - 1) * k) (h2 : 0 ≤ (p2 - 1) * k) (hne : p1 ≠ p2) :
    k.toNat = 0 ∨
      ((p1 - 1) * k).toNat + k.toNat ≤ ((p2 - 1) * k).toNat ∨
      ((p2 - 1) * k).toNat + k.toNat ≤ ((p1 - 1) * k).toNat := by
  by_cases hk0 : k = 0
  · left; simp [hk0]
  · right
    have hkpos : 0 < k := lt_of_le_of_ne hk (Ne.symm hk0)
    rcases lt_or_gt_of_ne hne with hlt | hgt
    · left
      have hstep : (p1 - 1) * k + k ≤ (p2 - 1) * k := by nlinarith
      calc ((p1 - 1) * k).toNat + k.toNat
          = ((p1 - 1) * k + k).toNat := (Int.toNat_add h1 hk).symm
        _ ≤ ((p2 - 1) * k).toNat := Int.toNat_le_toNat hstep
    · right
      have hstep : (p2 - 1) * k + k ≤ (p1 - 1) * k := by nlinarith
      calc ((p2 - 1) * k).toNat + k.toNat
          = ((p2 - 1) * k + k).toNat := (Int.toNat_add h2 hk).symm
        _ ≤ ((p1 - 1) * k).toNat := Int.toNat_le_toNat hstep

theorem sortRows_pairwise (l : List Row) : (sortRows l).Pairwise rowLE :=
  List.sorted_insertionSort rowLE l

theorem sortRows_ids_nodup {l : List Row} (h : (l.map Row.id).Nodup) :
    ((sortRows l).map Row.id).Nodup :=
  (((List.perm_insertionSort rowLE l)).map Row.id).nodup_iff.mpr h

theorem filterRows_ids_nodup {bs : List BCond} {t m : List Row}
    (hm : filterRows bs t = some m) (h : (t.map Row.id).Nodup) :
    (m.map Row.id).Nodup := by
  rw [filterRows_eq_filter bs t m hm]
  exact List.Nodup.sublist ((List.filter_sublist t).map Row.id) h

/-! Concrete fixtures used by counterexamples and witnesses. -/

/-- Stored row whose nutrients hold the unit-suffixed string of the spec's
scenario (calories `"389 kcal"`, rating 4.5). -/
def row389 : Row :=
  ⟨1, none, some "A", some (.num ⟨45, 1⟩), none, none, none, none,
    [("calories", "389 kcal")], none⟩

/-- Stored row with calories `"450 kcal"` and rating 4.0. -/
def row450 : Row :=
  ⟨2, none, some "B", some (.num ⟨40, 1⟩), none, none, none, none,
    [("calories", "450 kcal")], none⟩

/-- Recipe whose rating field is JSON `null`. -/
def recipeRatingNull : RecipeInput :=
  ⟨none, some (.jstr "T"), some .jnull, none, none, none, none, some [], none⟩

/-- Recipe whose four scalar text fields are all the empty string. -/
def recipeEmptyText : RecipeInput :=
  ⟨some (.jstr ""), some (.jstr ""), none, none, none, none,
    some (.jstr ""), some [], some (.jstr "")⟩

/-- Ingestion is a no-op on a table that already has a row. -/
theorem ingest_of_pos (d : List RecipeInput) (t : List Row) (h : 0 < t.length) :
    parseAndInsertRecipes d t = t := by
  rw [parseAndInsertRecipes, if_pos h]

/-- Characterisation of a successful listing request. -/
theorem listingSome_spec (pq lq : Option String) (t : List Row) (resp : ApiResponse)
    (h : getApiRecipes pq lq t = some resp) :
    0 ≤ listLimit lq ∧ 0 ≤ (listPage pq - 1) * listLimit lq ∧
    resp = ⟨listPage pq, listLimit lq, t.length,
      ((sortRows t).drop ((listPage pq - 1) * listLimit lq).toNat).take (listLimit lq).toNat⟩ := by
  rw [getApiRecipes] at h
  by_cases hc : listLimit lq < 0 ∨ (listPage pq - 1) * listLimit lq < 0
  · rw [if_pos hc] at h
    cases h
  · rw [if_neg hc] at h
    rcases not_or.mp hc with ⟨h1, h2⟩
    cases h
    exact ⟨le_of_not_lt h1, le_of_not_lt h2, rfl⟩

/-- Claim C1 (counterexample).  The claim says an unparseable filter value is
excluded from the predicate and the request still succeeds.  A non-numeric
rating value is not excluded: the rating condition is pushed with parameter
NaN; and a non-numeric total_time value makes the whole request fail (HTTP
500) even over an empty table. -/
theorem claim_C1_counterexample :
    (buildSearchQuery { emptyFilters with rating := some "abc" }).conds
        = [SqlCond.ratingCmp CmpOp.eq 1] ∧
    (buildSearchQuery { emptyFilters with rating := some "abc" }).params
        = [Param.pnum JsNum.nan] ∧
    getApiRecipesSearch { emptyFilters with total_time := some "abc" } none none []
        = none := by decide

/-- Claim C1 (amended).  Only the calories filter is dropped when its value
is unparseable (contains no digits); an unparseable rating or total_time
value still contributes exactly one comparison condition, whose parameter is
the NaN produced by parseFloat / parseInt. -/
theorem claim_C1 :
    (∀ s : String, s ≠ "" → firstDigitRun s = none →
      (buildSearchQuery { emptyFilters with calories := some s }).conds = []) ∧
    (∀ s : String, s ≠ "" →
      (buildSearchQuery { emptyFilters with rating := some s }).conds
          = [SqlCond.ratingCmp (cmpChain s).1 1] ∧
      (buildSearchQuery { emptyFilters with rating := some s }).params
          = [Param.pnum (jsParseFloatStr (cmpChain s).2)]) ∧
    (∀ s : String, s ≠ "" →
      (buildSearchQuery { emptyFilters with total_time := some s }).conds
          = [SqlCond.totalTimeCmp (cmpChain s).1 1] ∧
      (buildSearchQuery { emptyFilters with total_time := some s }).params
          = [Param.pnum (jsParseIntNumStr (cmpChain s).2)]) := by
  refine ⟨?_, ?_, ?_⟩
  · intro s hs hdr
    simp [buildSearchQuery, addTitle, addCuisine, addRating, addTotalTime,
      addCalories, emptyFilters, hs, hdr]
  · intro s hs
    constructor <;>
      simp [buildSearchQuery, addTitle, addCuisine, addRating, addTotalTime,
        addCalories, emptyFilters, hs]
  · intro s hs
    constructor <;>
      simp [buildSearchQuery, addTitle, addCuisine, addRating, addTotalTime,
        addCalories, emptyFilters, hs]

/-- Claim C1 (witness for the amended statement). -/
theorem claim_C1_witness :
    (buildSearchQuery { emptyFilters with calories := some "abc" }).conds = [] ∧
    (buildSearchQuery { emptyFilters with rating := some "xyz" }).conds
        = [SqlCond.ratingCmp (cmpChain "xyz").1 1] :=
  ⟨claim_C1.1 "abc" (by decide) (by decide), (claim_C1.2.1 "xyz" (by decide)).1⟩

/-- Claim C2.  The claim says the calories filter compares against the
leading digit run of the stored string, including a `"389 kcal"` row under
`calories=<=400`.  The generated SQL instead casts the whole stored string
with `CAST(nutrients->>[calories] AS INTEGER)`, which errors on
`"389 kcal"`, so the request fails (500) for both rows; the repository's own
`recipes_with_calories` view extracts 389 and 450, under which the claimed
inclusion (389 ≤ 400) and exclusion (450 ≤ 400 fails) would hold. -/
theorem claim_C2 :
    getApiRecipesSearch { emptyFilters with calories := some "<=400" } none none [row389]
        = none ∧
    getApiRecipesSearch { emptyFilters with calories := some "<=400" } none none [row450]
        = none ∧
    pgCastTextToInt "389 kcal" = none ∧
    viewCaloriesNumeric row389 = some ⟨389, 0⟩ ∧
    viewCaloriesNumeric row450 = some ⟨450, 0⟩ ∧
    Dec.leb ⟨389, 0⟩ ⟨400, 0⟩ = true ∧
    Dec.leb ⟨450, 0⟩ ⟨400, 0⟩ = false := by decide

/-- Claim C3.  The claim says a unit-suffixed nutrient string such as
`"389 kcal"` is preserved and only the literal `"NaN"` is removed.  The
sanitization uses the generic `isNaN` coercion test, which also deletes
`"389 kcal"`; only digit-only strings survive. -/
theorem claim_C3 :
    sanitizeNutrients [("calories", "389 kcal")] = [] ∧
    sanitizeNutrients [("calories", "NaN")] = [] ∧
    sanitizeNutrients [("calories", "389")] = [("calories", "389")] := by decide

/-- Claim C4.  The claim says a digit-free calories value contributes no
predicate and the request succeeds as if the parameter were absent.  No
condition is pushed, but `paramCount` was already incremented, so LIMIT and
OFFSET take placeholders 2 and 3 while only two parameters are supplied:
the query references a missing parameter and the request fails, unlike the
truly absent case, which succeeds. -/
theorem claim_C4 :
    (buildSearchQuery { emptyFilters with calories := some "abc" }).conds = [] ∧
    (buildSearchQuery { emptyFilters with calories := some "abc" }).params = [] ∧
    (buildSearchQuery { emptyFilters with calories := some "abc" }).limitIdx = 2 ∧
    (buildSearchQuery { emptyFilters with calories := some "abc" }).offsetIdx = 3 ∧
    getApiRecipesSearch { emptyFilters with calories := some "abc" } none none []
        = none ∧
    getApiRecipesSearch emptyFilters none none [] = some ⟨1, 10, 0, []⟩ := by decide

/-- Claim C5 (counterexample).  The claim says an invalid page parameter
falls back to 1 identically on both endpoints; Listing does fall back, but
Search keeps the NaN from `parseInt` (no default applies to present but
non-numeric values). -/
theorem claim_C5_counterexample :
    listPage (some "abc") = 1 ∧ searchPage (some "abc") = none := by decide

/-- Claim C5 (amended).  Listing: invalid or absent page falls back to 1 and
invalid or absent limit to 10.  Search: only absent parameters take the
defaults 1 and 10; a non-numeric value stays NaN.  Both endpoints clamp a
parsed limit above 50 to exactly 50, and both use offset = (page-1)*limit. -/
theorem claim_C5 :
    (∀ s : String, jsParseIntStr s = none → listPage (some s) = 1) ∧
    listPage none = 1 ∧
    (∀ s : String, jsParseIntStr s = none → listLimit (some s) = 10) ∧
    listLimit none = 10 ∧
    searchPage none = some 1 ∧
    searchLimit none = some 10 ∧
    (∀ s : String, jsParseIntStr s = none →
      searchPage (some s) = none ∧ searchLimit (some s) = none) ∧
    (∀ (s : String) (n : ℤ), jsParseIntStr s = some n → 50 < n →
      listLimit (some s) = 50 ∧ searchLimit (some s) = some 50) ∧
    (∀ pq lq t resp, getApiRecipes pq lq t = some resp →
      resp.data = ((sortRows t).drop ((resp.page - 1) * resp.limit).toNat).take
        resp.limit.toNat) ∧
    (∀ f pq lq t resp, getApiRecipesSearch f pq lq t = some resp →
      ∃ m, resp.data = ((sortRows m).drop ((resp.page - 1) * resp.limit).toNat).take
        resp.limit.toNat) := by
  refine ⟨?_, rfl, ?_, rfl, rfl, rfl, ?_, ?_, ?_, ?_⟩
  · intro s h; simp [listPage, h]
  · intro s h; simp [listLimit, h]
  · intro s h; constructor
    · simp [searchPage, h]
    · simp [searchLimit, h]
  · intro s n h hn
    have hne : ¬ n = 0 := by omega
    have hle : ¬ n ≤ 50 := by omega
    constructor
    · rw [listLimit]
      simp only [h]
      simp [hne, hle]
    · rw [searchLimit]
      simp only [h, Option.map_some']
      simp [hle]
  · intro pq lq t resp h
    obtain ⟨-, -, he⟩ := listingSome_spec pq lq t resp h
    subst he
    rfl
  · intro f pq lq t resp h
    obtain ⟨p, k, bs, m, -, -, -, -, -, -, he⟩ := searchSome_spec f pq lq t resp h
    subst he
    exact ⟨m, rfl⟩

/-- Claim C5 (witness for the amended statement). -/
theorem claim_C5_witness :
    listPage (some "zzz") = 1 ∧ listLimit (some "99") = 50 ∧
    searchLimit (some "99") = some 50 ∧ searchPage (some "zzz") = none :=
  ⟨claim_C5.1 "zzz" (by decide),
    (claim_C5.2.2.2.2.2.2.2.1 "99" 99 (by decide) (by decide)).1,
    (claim_C5.2.2.2.2.2.2.2.1 "99" 99 (by decide) (by decide)).2,
    (claim_C5.2.2.2.2.2.2.1 "zzz" (by decide)).1⟩

/-- Claim C8.  A table with at least one row makes ingestion a no-op, and a
second ingestion run never changes the row count reached after the first. -/
theorem claim_C8 (d : List RecipeInput) (t : List Row) (h : 1 ≤ t.length) :
    parseAndInsertRecipes d t = t ∧
    ∀ (d2 : List RecipeInput) (t2 : List Row),
      (parseAndInsertRecipes d2 (parseAndInsertRecipes d2 t2)).length
        = (parseAndInsertRecipes d2 t2).length := by
  constructor
  · exact ingest_of_pos d t (by omega)
  · intro d2 t2
    by_cases hn : 0 < (parseAndInsertRecipes d2 t2).length
    · rw [ingest_of_pos d2 _ hn]
    · have hz : parseAndInsertRecipes d2 t2 = [] :=
        List.length_eq_zero.mp (by omega)
      have ht2 : t2 = [] := by
        by_contra hne
        have hpos : 0 < t2.length := List.length_pos.mpr hne
        rw [ingest_of_pos d2 t2 hpos] at hz
        exact hne hz
      subst ht2
      rw [hz, hz]

/-- Claim C8 (witness). -/
theorem claim_C8_witness :
    parseAndInsertRecipes [] [row389] = [row389] ∧
    (parseAndInsertRecipes [] (parseAndInsertRecipes [] ([] : List Row))).length
      = (parseAndInsertRecipes [] ([] : List Row)).length :=
  ⟨(claim_C8 [] [row389] (by decide)).1, (claim_C8 [] [row389] (by decide)).2 [] []⟩

/-- Claim C9.  The claim says a numeric field is stored as a number or null,
never NaN.  A rating of JSON `null` (and likewise the empty string) passes
the `isNaN` guard (`Number(null)` is 0) but `parseFloat(null)` is NaN, so the
inserted row's FLOAT rating column holds NaN. -/
theorem claim_C9 :
    sanitizeFloatField (some Jval.jnull) = some JsNum.nan ∧
    sanitizeFloatField (some (Jval.jstr "")) = some JsNum.nan ∧
    (buildRowE 1 recipeRatingNull).map Row.rating = some (some JsNum.nan) := by decide

/-- Claim C10.  A present-but-empty scalar text field stores as null exactly
as if it were absent, because the `field || null` fallback sends every falsy
value to null. -/
theorem claim_C10 (rid : ℕ) (r : RecipeInput) :
    (r.cuisine = some (Jval.jstr "") →
      buildRowE rid r = buildRowE rid { r with cuisine := none }) ∧
    (r.title = some (Jval.jstr "") →
      buildRowE rid r = buildRowE rid { r with title := none }) ∧
    (r.description = some (Jval.jstr "") →
      buildRowE rid r = buildRowE rid { r with description := none }) ∧
    (r.serves = some (Jval.jstr "") →
      buildRowE rid r = buildRowE rid { r with serves := none }) ∧
    (∀ v : Jval, jsTruthy v = false → textColumn (some v) = textColumn none) := by
  refine ⟨?_, ?_, ?_, ?_, ?_⟩
  · intro h
    have hc : textColumn r.cuisine = textColumn (none : Option Jval) := by
      rw [h]; rfl
    simp only [buildRowE, hc]
  · intro h
    have hc : textColumn r.title = textColumn (none : Option Jval) := by
      rw [h]; rfl
    simp only [buildRowE, hc]
  · intro h
    have hc : textColumn r.description = textColumn (none : Option Jval) := by
      rw [h]; rfl
    simp only [buildRowE, hc]
  · intro h
    have hc : textColumn r.serves = textColumn (none : Option Jval) := by
      rw [h]; rfl
    simp only [buildRowE, hc]
  · intro v hv
    simp [textColumn, jsOrNull, hv]

/-- Claim C10 (witness). -/
theorem claim_C10_witness :
    buildRowE 1 recipeEmptyText = buildRowE 1 { recipeEmptyText with cuisine := none } ∧
    buildRowE 1 recipeEmptyText = buildRowE 1 { recipeEmptyText with title := none } ∧
    textColumn (some (Jval.jstr "")) = textColumn none :=
  ⟨(claim_C10 1 recipeEmptyText).1 rfl, (claim_C10 1 recipeEmptyText).2.1 rfl,
    (claim_C10 1 recipeEmptyText).2.2.2.2 (Jval.jstr "") (by decide)⟩

/-- Claim C7.  For every filter combination, the `total` field of a
successful search response equals the number of table rows satisfying
exactly the bound predicate of the data query (the count query reuses
`whereConditions` with `queryParams.slice(0, -2)`), never the unfiltered
table count. -/
theorem claim_C7 (f : SearchFilters) (pq lq : Option String) (t : List Row)
    (resp : ApiResponse) (bs : List BCond)
    (hr : getApiRecipesSearch f pq lq t = some resp)
    (hb : searchDataConds f pq lq = some bs) :
    resp.total = (t.filter (fun r => evalRow bs r == some true)).length := by
  obtain ⟨p, k, bs0, m, hp, hl, -, -, hbs0, hm, he⟩ := searchSome_spec f pq lq t resp hr
  simp only [searchDataConds, Option.bind_eq_bind, Option.bind_eq_some] at hb
  obtain ⟨p', hp', k', hl', hmap⟩ := hb
  rw [hp] at hp'
  injection hp' with hp'
  subst hp'
  rw [hl] at hl'
  injection hl' with hl'
  subst hl'
  rw [mapM_bindCond_append (buildSearchQuery f).params _ (buildSearchQuery f).conds
      (buildSearchQuery_wf f).1, hbs0] at hmap
  injection hmap with hmap
  rw [he, ← hmap]
  exact congrArg List.length (filterRows_eq_filter bs0 t m hm)

/-- Claim C7 (witness). -/
theorem claim_C7_witness :
    (⟨1, 10, 1, [row389]⟩ : ApiResponse).total
      = ([row450, row389].filter
          (fun r => evalRow [BCond.ratingCmp CmpOp.ge (.num ⟨42, 1⟩)] r == some true)).length :=
  claim_C7 { emptyFilters with rating := some ">=4.2" } none none [row450, row389]
    ⟨1, 10, 1, [row389]⟩ [BCond.ratingCmp CmpOp.ge (.num ⟨42, 1⟩)]
    (by decide) (by decide)

/-- Claim C6.  Both endpoints order results by rating descending with NULLs
last and ascending id as tie-break (the two ORDER BY clauses are the same
string, and every returned page is sorted under that ordering), and for a
fixed filter set and page size two responses with different page numbers
never share a row id. -/
theorem claim_C6 (t : List Row) (hids : (t.map Row.id).Nodup)
    (pq lq pq2 lq2 : Option String) (r1 r2 : ApiResponse)
    (h1 : getApiRecipes pq lq t = some r1)
    (h2 : getApiRecipes pq2 lq2 t = some r2)
    (hpage : r1.page ≠ r2.page) (hlim : r1.limit = r2.limit)
    (f : SearchFilters) (spq slq spq2 slq2 : Option String) (s1 s2 : ApiResponse)
    (hs1 : getApiRecipesSearch f spq slq t = some s1)
    (hs2 : getApiRecipesSearch f spq2 slq2 t = some s2)
    (hspage : s1.page ≠ s2.page) (hslim : s1.limit = s2.limit) :
    recipesOrderBySql = searchOrderBySql ∧
    r1.data.Pairwise rowLE ∧
    s1.data.Pairwise rowLE ∧
    (∀ x ∈ r1.data, ∀ y ∈ r2.data, x.id ≠ y.id) ∧
    (∀ x ∈ s1.data, ∀ y ∈ s2.data, x.id ≠ y.id) := by
  obtain ⟨hl1, ho1, he1⟩ := listingSome_spec pq lq t r1 h1
  obtain ⟨hl2, ho2, he2⟩ := listingSome_spec pq2 lq2 t r2 h2
  obtain ⟨p1, k1, bs1, m1, hp1, hk1, hknn1, honn1, hbs1, hm1, hse1⟩ :=
    searchSome_spec f spq slq t s1 hs1
  obtain ⟨p2, k2, bs2, m2, hp2, hk2, hknn2, honn2, hbs2, hm2, hse2⟩ :=
    searchSome_spec f spq2 slq2 t s2 hs2
  have hbseq : bs1 = bs2 := by
    rw [hbs1] at hbs2
    injection hbs2
  have hmeq : m1 = m2 := by
    rw [← hbseq] at hm2
    rw [hm1] at hm2
    injection hm2
  subst he1
  subst he2
  subst hse1
  subst hse2
  dsimp only [] at hpage hlim hspage hslim
  subst hmeq
  have hk12 : k1 = k2 := hslim
  subst hk12
  refine ⟨rfl, slice_pairwise (sortRows_pairwise t) _ _,
    slice_pairwise (sortRows_pairwise m1) _ _, ?_, ?_⟩
  · rw [← hlim]
    rcases pages_sep (listPage pq) (listPage pq2) (listLimit lq) hl1 ho1
        (by rw [hlim]; exact ho2) hpage with hk0 | hsep | hsep
    · intro x hx
      rw [hk0, List.take_zero] at hx
      cases hx
    · exact slice_disjoint_ids (sortRows_ids_nodup hids) (Or.inl hsep)
    · exact slice_disjoint_ids (sortRows_ids_nodup hids) (Or.inr hsep)
  · have hmn : (m1.map Row.id).Nodup := filterRows_ids_nodup hm1 hids
    rcases pages_sep p1 p2 k1 hknn1 honn1 honn2 hspage with hk0 | hsep | hsep
    · intro x hx
      rw [hk0, List.take_zero] at hx
      cases hx
    · exact slice_disjoint_ids (sortRows_ids_nodup hmn) (Or.inl hsep)
    · exact slice_disjoint_ids (sortRows_ids_nodup hmn) (Or.inr hsep)

/-- Claim C6 (witness): two listing pages and two search pages of a two-row
table. -/
theorem claim_C6_witness :
    recipesOrderBySql = searchOrderBySql ∧
    ([row389] : List Row).Pairwise rowLE ∧
    ([row389] : List Row).Pairwise rowLE ∧
    (∀ x ∈ ([row389] : List Row), ∀ y ∈ ([row450] : List Row), x.id ≠ y.id) ∧
    (∀ x ∈ ([row389] : List Row), ∀ y ∈ ([row450] : List Row), x.id ≠ y.id) :=
  claim_C6 [row450, row389] (by decide)
    (some "1") (some "1") (some "2") (some "1")
    ⟨1, 1, 2, [row389]⟩ ⟨2, 1, 2, [row450]⟩
    (by decide) (by decide) (by decide) (by decide)
    emptyFilters (some "1") (some "1") (some "2") (some "1")
    ⟨1, 1, 2, [row389]⟩ ⟨2, 1, 2, [row450]⟩
    (by decide) (by decide) (by decide) (by decide)
